import Mathlib

/-!
Verification of the canvas pattern-tiling subsystem.

Shallow embedding of the repository's core drawing code:
 - `canvas_units.py` (unit/scale adapter: `CanvasUnitScaled`, `CanvasUnitLinked`),
 - `gashura_helper.py` (tiling engine: vertical, diagonal and motif fills),
 - `shapes.py` (`MultiShape` cyclic dispatch),
 - `canvas.py` (`Canvas.add` unit registry).

Real-valued page coordinates are modelled with `ℚ` (the Python code uses
floats; every claim here is about exact arithmetic on the loop skeletons).
The dip-to-angle conversion uses `math.atan`, embedded with `Real.arctan`.
Drawing is modelled as the list of primitive calls emitted, in order; the
polygon clipping that each emitted line subsequently undergoes is performed
by the third-party `pyclipper` library and is out of scope of the embedding.
-/

/-- Python's `%` on numbers: `a % b = a - b * floor (a / b)` (result has the
sign of the divisor), as used by the grid-start computations. -/
def pymod (a b : ℚ) : ℚ := a - b * ⌊a / b⌋

/-- Python's floor division `a // b` (as an integer). -/
def pyfloordiv (a b : ℚ) : ℤ := ⌊a / b⌋

/-- Line types from `backend.py` (`class LineType(Enum)`). -/
inductive LineType where
  | SOLID
  | DOT
  | THAWED
  | DASH
deriving DecidableEq

/-- Colors from `backend.py` (`class Color(Enum)`). -/
inductive Color where
  | BLACK
  | WHITE
  | RED
  | BLUE
  | ORANGE
  | GRAY
  | GREEN
deriving DecidableEq

/-- The scale/offset state of a `CanvasUnitScaled` / `CanvasUnitLinked`
(`canvas_units.py`): the four base attributes, the two derived `_mm` scales
set in `__post_init__`, and the origin (a pair that starts as `None, None`). -/
structure UnitState where
  scale_horizontal : ℚ
  scale_vertical : ℚ
  scale_horizontal_mm : ℚ
  scale_vertical_mm : ℚ
  x_offset_m : ℚ
  y_offset_m : ℚ
  origin : Option ℚ × Option ℚ
deriving DecidableEq

/-- `CanvasUnitScaled.__post_init__`: given the four base attributes, set
`scale_horizontal_mm = 1000 / scale_horizontal` and
`scale_vertical_mm = 1000 / scale_vertical` (`canvas_units.py` lines 161-164). -/
def CanvasUnitScaled.mk_unit (scale_horizontal scale_vertical x_offset_m y_offset_m : ℚ) :
    UnitState :=
  { scale_horizontal := scale_horizontal
    scale_vertical := scale_vertical
    scale_horizontal_mm := 1000 / scale_horizontal
    scale_vertical_mm := 1000 / scale_vertical
    x_offset_m := x_offset_m
    y_offset_m := y_offset_m
    origin := (none, none) }

/-- `CanvasUnitScaled.mm_to_m_horizontal` (`canvas_units.py` lines 172-174). -/
def mm_to_m_horizontal (u : UnitState) (mm : ℚ) : ℚ := mm / u.scale_horizontal_mm

/-- `CanvasUnitScaled.mm_to_m_vertical` (`canvas_units.py` lines 176-178). -/
def mm_to_m_vertical (u : UnitState) (mm : ℚ) : ℚ := mm / u.scale_vertical_mm

/-- `CanvasUnitScaled.m_to_mm_horizontal` (`canvas_units.py` lines 180-182). -/
def m_to_mm_horizontal (u : UnitState) (m : ℚ) : ℚ := m * u.scale_horizontal_mm

/-- `CanvasUnitScaled.m_to_mm_vertical` (`canvas_units.py` lines 184-186). -/
def m_to_mm_vertical (u : UnitState) (m : ℚ) : ℚ := m * u.scale_vertical_mm

/-- `CanvasUnitLinked.__post_init__` (`canvas_units.py` lines 237-245), verbatim:
`scale_horizontal` and `scale_vertical` are both assigned from the parent's
`scale_horizontal` (line 240 of the source reads
`self.scale_vertical = self.linked_cu.scale_horizontal`), while the remaining
five attributes are copied from their corresponding parent attributes. -/
def linked_post_init (linked_cu : UnitState) : UnitState :=
  { scale_horizontal := linked_cu.scale_horizontal
    scale_vertical := linked_cu.scale_horizontal
    scale_horizontal_mm := linked_cu.scale_horizontal_mm
    scale_vertical_mm := linked_cu.scale_vertical_mm
    x_offset_m := linked_cu.x_offset_m
    y_offset_m := linked_cu.y_offset_m
    origin := linked_cu.origin }

/-- A line passed to a `draw_lines...inside_polygon` call: a pair of
endpoints, each an `(x, y)` pair. -/
abbrev Line : Type := (ℚ × ℚ) × (ℚ × ℚ)

/-- Number of iterations of a loop `while x < x1: x += dx` started at `x`,
namely `⌈(x1 - x) / dx⌉` clamped to `Nat` (exact for `dx > 0`). Used as fuel
for the loop embeddings. -/
def stepCount (x x1 dx : ℚ) : Nat := (⌈(x1 - x) / dx⌉).toNat

/-- The loop of `fill_polygon_with_lines_vertical` (`gashura_helper.py` lines
86-92): `while x < x1: x += dx_m; line = ((x, y0), (x, y1)); draw(line)`.
The increment precedes the draw, so each emitted line sits one pitch beyond
the tested position. -/
def vlinesAux (dx_m x1 y0 y1 : ℚ) : Nat → ℚ → List Line
  | 0, _ => []
  | fuel + 1, x =>
    if x < x1 then
      ((x + dx_m, y0), (x + dx_m, y1)) :: vlinesAux dx_m x1 y0 y1 fuel (x + dx_m)
    else []

/-- The pitch in bounding-box units used by the vertical fill: converted from
millimeters when the canvas unit is a `CanvasUnitLinked` (modelled by
`some u`), taken verbatim otherwise (`gashura_helper.py` lines 80-83). -/
def vertical_dx_m (canvas_unit : Option UnitState) (dx_mm : ℚ) : ℚ :=
  match canvas_unit with
  | some u => mm_to_m_horizontal u dx_mm
  | none => dx_mm

/-- `fill_polygon_with_lines_vertical` (`gashura_helper.py` lines 76-92):
grid start `x0 - x0 % dx_m`, then the draw loop. Returns the list of lines
passed on to `draw_lines..._inside_polygon` (each subsequently clipped to the
polygon by `pyclipper`). -/
def fill_polygon_with_lines_vertical (canvas_unit : Option UnitState)
    (bounding_box : ℚ × ℚ × ℚ × ℚ) (dx_mm : ℚ) : List Line :=
  match bounding_box with
  | (x0, x1, y0, y1) =>
    vlinesAux (vertical_dx_m canvas_unit dx_mm) x1 y0 y1
      (stepCount (x0 - pymod x0 (vertical_dx_m canvas_unit dx_mm)) x1
        (vertical_dx_m canvas_unit dx_mm))
      (x0 - pymod x0 (vertical_dx_m canvas_unit dx_mm))

/-- The x-coordinate of a vertical fill line (both endpoints share it). -/
def lineX (l : Line) : ℚ := l.1.1

section VerticalFill

lemma stepCount_eq_zero {x x1 dx : ℚ} (h : x1 ≤ x) (hdx : 0 < dx) :
    stepCount x x1 dx = 0 := by
  unfold stepCount
  have hle : (x1 - x) / dx ≤ 0 :=
    div_nonpos_of_nonpos_of_nonneg (by linarith) hdx.le
  have : ⌈(x1 - x) / dx⌉ ≤ 0 := by
    have h0 := Int.ceil_le.mpr (show (x1 - x) / dx ≤ ((0 : ℤ) : ℚ) by exact_mod_cast hle)
    simpa using h0
  omega

lemma stepCount_succ {x x1 dx : ℚ} (h : x < x1) (hdx : 0 < dx) :
    stepCount x x1 dx = stepCount (x + dx) x1 dx + 1 := by
  unfold stepCount
  have hne : dx ≠ 0 := ne_of_gt hdx
  have harg : (x1 - (x + dx)) / dx = (x1 - x) / dx - 1 := by
    field_simp
    ring
  have hceil : ⌈(x1 - (x + dx)) / dx⌉ = ⌈(x1 - x) / dx⌉ - 1 := by
    rw [harg, Int.ceil_sub_one]
  have hpos : 0 < ⌈(x1 - x) / dx⌉ := by
    rw [Int.ceil_pos]
    exact div_pos (by linarith) hdx
  omega

lemma vlinesAux_eq (dx_m x1 y0 y1 : ℚ) (hdx : 0 < dx_m) :
    ∀ (fuel : Nat) (x : ℚ), stepCount x x1 dx_m ≤ fuel →
      vlinesAux dx_m x1 y0 y1 fuel x =
        (List.range (stepCount x x1 dx_m)).map
          (fun k => ((x + (k + 1 : ℕ) * dx_m, y0), (x + (k + 1 : ℕ) * dx_m, y1))) := by
  intro fuel
  induction fuel with
  | zero =>
    intro x hfuel
    have h0 : stepCount x x1 dx_m = 0 := Nat.le_zero.mp hfuel
    simp [vlinesAux, h0]
  | succ n ih =>
    intro x hfuel
    by_cases hx : x < x1
    · have hsucc := stepCount_succ hx hdx
      have hrec := ih (x + dx_m) (by omega)
      rw [hsucc]
      simp only [vlinesAux, if_pos hx]
      rw [hrec, List.range_succ_eq_map, List.map_cons, List.map_map]
      congr 1
      · norm_num
      · refine List.map_congr_left fun k _ => ?_
        simp only [Function.comp_apply, Prod.mk.injEq]
        push_cast
        exact ⟨⟨by ring, trivial⟩, by ring, trivial⟩
    · have h0 : stepCount x x1 dx_m = 0 := stepCount_eq_zero (le_of_not_lt hx) hdx
      simp [vlinesAux, h0, hx]

lemma vertical_dx_m_square : vertical_dx_m (some (CanvasUnitScaled.mk_unit 1000 100 0 0)) 2 = 2 := by
  norm_num [vertical_dx_m, mm_to_m_horizontal, CanvasUnitScaled.mk_unit]

lemma vertical_fill_square_eval :
    fill_polygon_with_lines_vertical (some (CanvasUnitScaled.mk_unit 1000 100 0 0))
        (0, 10, 0, 10) 2 =
      [((2, 0), (2, 10)), ((4, 0), (4, 10)), ((6, 0), (6, 10)),
       ((8, 0), (8, 10)), ((10, 0), (10, 10))] := by
  have hstart : (0 : ℚ) - pymod 0 2 = 0 := by norm_num [pymod]
  have hsc : stepCount 0 10 2 = 5 := by
    unfold stepCount
    norm_num
    decide
  simp only [fill_polygon_with_lines_vertical, vertical_dx_m_square, hstart, hsc]
  rw [vlinesAux_eq 2 10 0 10 (by norm_num) 5 0 (by rw [hsc])]
  rw [hsc]
  norm_num [List.range_succ, Prod.ext_iff]

end VerticalFill

/-- Claim C1: filling the square with vertices (0,0),(10,0),(10,10),(0,10),
bounding box (0,10,0,10), with the vertical-line fill at `dx_mm = 2.0` on a
linked unit whose horizontal scale is 1:1000 (so `mm_to_m_horizontal 2 = 2`)
emits exactly 5 full-height vertical lines, at x = 2, 4, 6, 8 and 10, each
running from y = 0 to y = 10 (each subsequently clipped to the polygon by
the downstream clipper). -/
theorem C1_vertical_fill_square :
    fill_polygon_with_lines_vertical (some (CanvasUnitScaled.mk_unit 1000 100 0 0))
        (0, 10, 0, 10) 2 =
      [((2, 0), (2, 10)), ((4, 0), (4, 10)), ((6, 0), (6, 10)),
       ((8, 0), (8, 10)), ((10, 0), (10, 10))] :=
  vertical_fill_square_eval

/-- Claim C2 (amended): for every bounding box and pitch with converted pitch
`dx_m > 0`, the vertical fill draws its lines at `s + dx, s + 2·dx, …` where
`s = x0 - (x0 mod dx)` is the grid start, one line per loop step, stopping
once the previous position reaches `x1`; the grid start `s` itself gets no
line — every drawn x-position strictly exceeds `s`. -/
theorem C2_vertical_grid_positions (canvas_unit : Option UnitState)
    (x0 x1 y0 y1 dx_mm : ℚ) (hdx : 0 < vertical_dx_m canvas_unit dx_mm) :
    fill_polygon_with_lines_vertical canvas_unit (x0, x1, y0, y1) dx_mm =
      (List.range (stepCount (x0 - pymod x0 (vertical_dx_m canvas_unit dx_mm)) x1
          (vertical_dx_m canvas_unit dx_mm))).map
        (fun k =>
          ((x0 - pymod x0 (vertical_dx_m canvas_unit dx_mm) +
              (k + 1 : ℕ) * vertical_dx_m canvas_unit dx_mm, y0),
           (x0 - pymod x0 (vertical_dx_m canvas_unit dx_mm) +
              (k + 1 : ℕ) * vertical_dx_m canvas_unit dx_mm, y1))) ∧
    ∀ l ∈ fill_polygon_with_lines_vertical canvas_unit (x0, x1, y0, y1) dx_mm,
      x0 - pymod x0 (vertical_dx_m canvas_unit dx_mm) < lineX l := by
  set dx_m := vertical_dx_m canvas_unit dx_mm with hdxm
  have hmain :
      fill_polygon_with_lines_vertical canvas_unit (x0, x1, y0, y1) dx_mm =
        (List.range (stepCount (x0 - pymod x0 dx_m) x1 dx_m)).map
          (fun k =>
            ((x0 - pymod x0 dx_m + (k + 1 : ℕ) * dx_m, y0),
             (x0 - pymod x0 dx_m + (k + 1 : ℕ) * dx_m, y1))) := by
    simp only [fill_polygon_with_lines_vertical, ← hdxm]
    exact vlinesAux_eq dx_m x1 y0 y1 hdx _ _ le_rfl
  refine ⟨hmain, ?_⟩
  intro l hl
  rw [hmain] at hl
  rcases List.mem_map.mp hl with ⟨k, _, hk⟩
  rw [← hk]
  unfold lineX
  have : (0 : ℚ) < (k + 1 : ℕ) * dx_m := by
    apply mul_pos _ hdx
    push_cast
    positivity
  simp only
  linarith

/-- Witness for C2 (amended), at the concrete input of the C1 scenario:
positive pitch hypothesis discharged at `dx_mm = 2` on the 1:1000 unit. -/
theorem C2_vertical_grid_positions_witness :
    fill_polygon_with_lines_vertical (some (CanvasUnitScaled.mk_unit 1000 100 0 0))
        (0, 10, 0, 10) 2 =
      (List.range (stepCount
          (0 - pymod 0 (vertical_dx_m (some (CanvasUnitScaled.mk_unit 1000 100 0 0)) 2)) 10
          (vertical_dx_m (some (CanvasUnitScaled.mk_unit 1000 100 0 0)) 2))).map
        (fun k =>
          ((0 - pymod 0 (vertical_dx_m (some (CanvasUnitScaled.mk_unit 1000 100 0 0)) 2) +
              (k + 1 : ℕ) * vertical_dx_m (some (CanvasUnitScaled.mk_unit 1000 100 0 0)) 2, 0),
           (0 - pymod 0 (vertical_dx_m (some (CanvasUnitScaled.mk_unit 1000 100 0 0)) 2) +
              (k + 1 : ℕ) * vertical_dx_m (some (CanvasUnitScaled.mk_unit 1000 100 0 0)) 2, 10))) ∧
    ∀ l ∈ fill_polygon_with_lines_vertical (some (CanvasUnitScaled.mk_unit 1000 100 0 0))
        (0, 10, 0, 10) 2,
      0 - pymod 0 (vertical_dx_m (some (CanvasUnitScaled.mk_unit 1000 100 0 0)) 2) < lineX l :=
  C2_vertical_grid_positions (some (CanvasUnitScaled.mk_unit 1000 100 0 0)) 0 10 0 10 2
    (by rw [vertical_dx_m_square]; norm_num)

/-- Counterexample to C2 as stated: on bounding box (0,10,0,10) with pitch 2
the grid start is `0 - (0 mod 2) = 0`, yet the drawn x-positions are
2, 4, 6, 8, 10 — no line is drawn at the grid start position itself. -/
theorem C2_counterexample :
    (fill_polygon_with_lines_vertical (some (CanvasUnitScaled.mk_unit 1000 100 0 0))
        (0, 10, 0, 10) 2).map lineX = [2, 4, 6, 8, 10] ∧
    (0 : ℚ) - pymod 0 (vertical_dx_m (some (CanvasUnitScaled.mk_unit 1000 100 0 0)) 2) = 0 ∧
    (0 : ℚ) ∉ (fill_polygon_with_lines_vertical (some (CanvasUnitScaled.mk_unit 1000 100 0 0))
        (0, 10, 0, 10) 2).map lineX := by
  rw [vertical_fill_square_eval]
  refine ⟨by norm_num [lineX], ?_, by norm_num [lineX]⟩
  rw [vertical_dx_m_square]
  norm_num [pymod]

/-- Claim C6 (evaluated at the failing input): for a parent unit with
`scale_horizontal = 1000` and `scale_vertical = 100`, the linked child's
`scale_vertical` after `__post_init__` is 1000 — the parent's horizontal
scale — not the parent's vertical scale 100; the derived
`scale_vertical_mm` is nevertheless copied from the parent's
`scale_vertical_mm`, exposing the copy-paste slip on source line 240. -/
theorem C6_linked_unit_vertical_scale :
    (linked_post_init (CanvasUnitScaled.mk_unit 1000 100 0 0)).scale_vertical = 1000 ∧
    (CanvasUnitScaled.mk_unit 1000 100 0 0).scale_vertical = 100 ∧
    (linked_post_init (CanvasUnitScaled.mk_unit 1000 100 0 0)).scale_vertical ≠
      (CanvasUnitScaled.mk_unit 1000 100 0 0).scale_vertical ∧
    (linked_post_init (CanvasUnitScaled.mk_unit 1000 100 0 0)).scale_vertical_mm =
      (CanvasUnitScaled.mk_unit 1000 100 0 0).scale_vertical_mm := by
  refine ⟨by norm_num [linked_post_init, CanvasUnitScaled.mk_unit],
    by norm_num [CanvasUnitScaled.mk_unit],
    by norm_num [linked_post_init, CanvasUnitScaled.mk_unit],
    by norm_num [linked_post_init, CanvasUnitScaled.mk_unit]⟩

/-- Claim C7: on a unit built by `CanvasUnitScaled.__post_init__` from
positive scale factors, the meter/millimeter conversions are mutual inverses
on each axis, exactly over exact arithmetic. -/
theorem C7_conversion_roundtrip (sh sv xo yo v : ℚ) (hh : 0 < sh) (hv : 0 < sv) :
    m_to_mm_horizontal (CanvasUnitScaled.mk_unit sh sv xo yo)
        (mm_to_m_horizontal (CanvasUnitScaled.mk_unit sh sv xo yo) v) = v ∧
    mm_to_m_horizontal (CanvasUnitScaled.mk_unit sh sv xo yo)
        (m_to_mm_horizontal (CanvasUnitScaled.mk_unit sh sv xo yo) v) = v ∧
    m_to_mm_vertical (CanvasUnitScaled.mk_unit sh sv xo yo)
        (mm_to_m_vertical (CanvasUnitScaled.mk_unit sh sv xo yo) v) = v ∧
    mm_to_m_vertical (CanvasUnitScaled.mk_unit sh sv xo yo)
        (m_to_mm_vertical (CanvasUnitScaled.mk_unit sh sv xo yo) v) = v := by
  have hh' : sh ≠ 0 := ne_of_gt hh
  have hv' : sv ≠ 0 := ne_of_gt hv
  have hsh : (1000 : ℚ) / sh ≠ 0 := by positivity
  have hsv : (1000 : ℚ) / sv ≠ 0 := by positivity
  unfold m_to_mm_horizontal mm_to_m_horizontal m_to_mm_vertical mm_to_m_vertical
    CanvasUnitScaled.mk_unit
  refine ⟨div_mul_cancel₀ v hsh, mul_div_cancel_right₀ v hsh,
    div_mul_cancel₀ v hsv, mul_div_cancel_right₀ v hsv⟩

/-- Witness for C7: both positivity hypotheses discharged at the concrete
1:1000 / 1:100 unit with `v = 7`. -/
theorem C7_conversion_roundtrip_witness :
    m_to_mm_horizontal (CanvasUnitScaled.mk_unit 1000 100 0 0)
        (mm_to_m_horizontal (CanvasUnitScaled.mk_unit 1000 100 0 0) 7) = 7 ∧
    mm_to_m_horizontal (CanvasUnitScaled.mk_unit 1000 100 0 0)
        (m_to_mm_horizontal (CanvasUnitScaled.mk_unit 1000 100 0 0) 7) = 7 ∧
    m_to_mm_vertical (CanvasUnitScaled.mk_unit 1000 100 0 0)
        (mm_to_m_vertical (CanvasUnitScaled.mk_unit 1000 100 0 0) 7) = 7 ∧
    mm_to_m_vertical (CanvasUnitScaled.mk_unit 1000 100 0 0)
        (m_to_mm_vertical (CanvasUnitScaled.mk_unit 1000 100 0 0) 7) = 7 :=
  C7_conversion_roundtrip 1000 100 0 0 7 (by norm_num) (by norm_num)

/-- The argument bundle of a `Shape.draw` call (`shapes.py` lines 91-99):
position, rotation angle, canvas unit, optional clip polygon, color and
draw scale. `MultiShape.draw` forwards all of these untouched. -/
structure DrawArgs where
  position : ℚ × ℚ
  angle : ℚ
  canvas_unit : Option UnitState
  polygon : Option (List (ℚ × ℚ))
  color : Option Color
  scale : ℚ
deriving DecidableEq

/-- One step of `itertools.cycle(shapes)` with cursor `cursor`: yields
`shapes[cursor % len(shapes)]` (`none` for an empty sequence, where Python's
`next` would raise `StopIteration`) and advances the cursor by one. -/
def cycle_next {σ : Type} (shapes : List σ) (cursor : Nat) : Option σ × Nat :=
  (shapes.get? (cursor % shapes.length), cursor + 1)

/-- `MultiShape.draw` (`shapes.py` lines 131-149): takes one shape from the
cycle and delegates the whole call to that member's `draw`, forwarding the
arguments unchanged; returns the emitted (member, arguments) call and the
advanced cursor. -/
def MultiShape.draw {σ : Type} (shapes : List σ) (cursor : Nat) (args : DrawArgs) :
    (Option σ × DrawArgs) × Nat :=
  match cycle_next shapes cursor with
  | (shape, cursor') => ((shape, args), cursor')

/-- N consecutive `MultiShape.draw` calls: the emitted member calls in order,
and the final cursor. -/
def MultiShape.drawRun {σ : Type} (shapes : List σ) :
    Nat → List DrawArgs → List (Option σ × DrawArgs) × Nat
  | cursor, [] => ([], cursor)
  | cursor, a :: rest =>
    match MultiShape.draw shapes cursor a with
    | ((s, a'), cursor') =>
      match MultiShape.drawRun shapes cursor' rest with
      | (tail, final) => ((s, a') :: tail, final)

/-- Claim C3's expected behaviour, written from the spec's words: the k-th
call (counting from `k₀`) dispatches to A, B or C according to `k mod 3`
(A first), with the call's arguments forwarded unchanged. -/
def specCyclicDispatch {σ : Type} (A B C : σ) : Nat → List DrawArgs → List (Option σ × DrawArgs)
  | _, [] => []
  | k, a :: rest =>
    (some (if k % 3 = 0 then A else if k % 3 = 1 then B else C), a) ::
      specCyclicDispatch A B C (k + 1) rest

lemma get?_three {σ : Type} (A B C : σ) (cursor : Nat) :
    [A, B, C].get? (cursor % 3) =
      some (if cursor % 3 = 0 then A else if cursor % 3 = 1 then B else C) := by
  have h : cursor % 3 = 0 ∨ cursor % 3 = 1 ∨ cursor % 3 = 2 := by omega
  rcases h with h | h | h <;> rw [h] <;> simp

lemma drawRun_three_eq {σ : Type} (A B C : σ) :
    ∀ (args : List DrawArgs) (cursor : Nat),
      MultiShape.drawRun [A, B, C] cursor args =
        (specCyclicDispatch A B C cursor args, cursor + args.length) := by
  intro args
  induction args with
  | nil => intro cursor; simp [MultiShape.drawRun, specCyclicDispatch]
  | cons a rest ih =>
    intro cursor
    simp only [MultiShape.drawRun, MultiShape.draw, cycle_next, ih (cursor + 1),
      specCyclicDispatch, List.length_cons]
    rw [show ([] : List σ).length + 1 + 1 + 1 = 3 from rfl, get?_three]
    exact Prod.ext_iff.mpr ⟨rfl, by omega⟩

/-- Claim C3: a `MultiShape` over member shapes [A, B, C] dispatches its
consecutive `draw` calls to the members in the exact cyclic order
A, B, C, A, B, C, … starting from A on the first call; each call advances
the cycle exactly once (after N calls the cursor has moved by exactly N) and
delegates entirely to the selected member's draw with the same position,
angle, canvas unit, polygon, color and scale, applying no transform of its
own (the forwarded argument bundle is identical). -/
theorem C3_multishape_cyclic_dispatch {σ : Type} (A B C : σ) (args : List DrawArgs) :
    (MultiShape.drawRun [A, B, C] 0 args).1 = specCyclicDispatch A B C 0 args ∧
    (MultiShape.drawRun [A, B, C] 0 args).2 = args.length := by
  rw [drawRun_three_eq]
  exact ⟨rfl, by simp⟩

/-- One emitted row of the diagonal fill: the long diagonal line and the
line type it is drawn with. -/
abbrev DiagRow : Type := Line × LineType

/-- The pitch `dx_m` of `fill_polygon_with_lines_diagonal`
(`gashura_helper.py` lines 105-111): `dx_mm = 0.5 * d_mm`, converted from
millimeters for a `CanvasUnitLinked` (modelled by `some u`). -/
def diag_dx_m (canvas_unit : Option UnitState) (d_mm : ℚ) : ℚ :=
  match canvas_unit with
  | some u => mm_to_m_horizontal u (0.5 * d_mm)
  | none => 0.5 * d_mm

/-- The row pitch `dy_m` of the diagonal fill (`gashura_helper.py` lines
104-110): `dy_mm = d_mm`, converted from millimeters for a linked unit. -/
def diag_dy_m (canvas_unit : Option UnitState) (d_mm : ℚ) : ℚ :=
  match canvas_unit with
  | some u => mm_to_m_vertical u d_mm
  | none => d_mm

/-- The slope extent `dy` of the diagonal fill: `dy = dx / 10` with
`dx = x1 - x0`, overwritten to `dy = dx` in the non-linked branch
(`gashura_helper.py` lines 101-112). -/
def diag_dy (canvas_unit : Option UnitState) (x0 x1 : ℚ) : ℚ :=
  match canvas_unit with
  | some _ => (x1 - x0) / 10
  | none => x1 - x0

/-- The computed grid start `x` of the diagonal fill (`gashura_helper.py`
lines 117-119): `x = x0 - x0 % dx_m`, then `x += dx_m` when
`(x // dx_m) % 2` is nonzero. -/
def diag_x_start (canvas_unit : Option UnitState) (x0 d_mm : ℚ) : ℚ :=
  if pyfloordiv (x0 - pymod x0 (diag_dx_m canvas_unit d_mm)) (diag_dx_m canvas_unit d_mm) % 2 ≠ 0
  then x0 - pymod x0 (diag_dx_m canvas_unit d_mm) + diag_dx_m canvas_unit d_mm
  else x0 - pymod x0 (diag_dx_m canvas_unit d_mm)

/-- The starting row coordinate of the diagonal fill (`gashura_helper.py`
lines 114-116): `y0_ = y0 - dy; y = y0_ - y0_ % dy_m`. -/
def diag_y_start (canvas_unit : Option UnitState) (x0 x1 y0 d_mm : ℚ) : ℚ :=
  y0 - diag_dy canvas_unit x0 x1 -
    pymod (y0 - diag_dy canvas_unit x0 x1) (diag_dy_m canvas_unit d_mm)

/-- The initial `line_type_flag` of the diagonal fill (`gashura_helper.py`
lines 122-124): `True`, set to `False` when `(x // dx_m) % 4` is nonzero at
the computed grid start. -/
def diag_flag0 (canvas_unit : Option UnitState) (x0 d_mm : ℚ) : Bool :=
  if pyfloordiv (diag_x_start canvas_unit x0 d_mm) (diag_dx_m canvas_unit d_mm) % 4 ≠ 0
  then false
  else true

/-- The row loop of `fill_polygon_with_lines_diagonal` (`gashura_helper.py`
lines 128-148): `while y - 50*dy < y1`, emit the long diagonal line from
`(x_left, y - 50*dy)` to `(x_right, y + 50*dy)`; with `alter_linetype` the
flag is negated before each row and selects DASH (flag set) or SOLID,
otherwise the passed `linetype` (defaulting to SOLID) is used; then
`y += dy_m`. -/
def diagAux (alter_linetype : Bool) (linetype : Option LineType)
    (dy dy_m x_left x_right y1 : ℚ) : Nat → Bool → ℚ → List DiagRow
  | 0, _, _ => []
  | fuel + 1, line_type_flag, y =>
    if y - 50 * dy < y1 then
      (((x_left, y - 50 * dy), (x_right, y + 50 * dy)),
        if alter_linetype then
          (if !line_type_flag then LineType.DASH else LineType.SOLID)
        else linetype.getD LineType.SOLID) ::
        diagAux alter_linetype linetype dy dy_m x_left x_right y1 fuel
          (if alter_linetype then !line_type_flag else line_type_flag) (y + dy_m)
    else []

/-- `fill_polygon_with_lines_diagonal` (`gashura_helper.py` lines 95-148):
computes the pitches, the grid start, the initial line-type flag, and emits
one long diagonal line per row (each subsequently clipped to the polygon by
`pyclipper`). -/
def fill_polygon_with_lines_diagonal (canvas_unit : Option UnitState)
    (bounding_box : ℚ × ℚ × ℚ × ℚ) (linetype : Option LineType)
    (alter_linetype : Bool) (d_mm : ℚ) : List DiagRow :=
  match bounding_box with
  | (x0, x1, y0, y1) =>
    diagAux alter_linetype linetype (diag_dy canvas_unit x0 x1) (diag_dy_m canvas_unit d_mm)
      (diag_x_start canvas_unit x0 d_mm - 50 * (x1 - x0))
      (diag_x_start canvas_unit x0 d_mm + 50 * (x1 - x0))
      y1
      (stepCount (diag_y_start canvas_unit x0 x1 y0 d_mm)
        (y1 + 50 * (diag_dy canvas_unit x0 x1)) (diag_dy_m canvas_unit d_mm))
      (diag_flag0 canvas_unit x0 d_mm)
      (diag_y_start canvas_unit x0 x1 y0 d_mm)

/-- Claim C9's expected style sequence, written from the spec's words: a
strictly alternating DASH/SOLID sequence whose first element is DASH exactly
when the start-phase bit is set. -/
def specAlternating : Bool → Nat → List LineType
  | _, 0 => []
  | b, n + 1 => (if b then LineType.DASH else LineType.SOLID) :: specAlternating (!b) n

lemma diagAux_linetypes (linetype : Option LineType) (dy dy_m x_left x_right y1 : ℚ) :
    ∀ (fuel : Nat) (flag : Bool) (y : ℚ),
      (diagAux true linetype dy dy_m x_left x_right y1 fuel flag y).map Prod.snd =
        specAlternating (!flag)
          (diagAux true linetype dy dy_m x_left x_right y1 fuel flag y).length := by
  intro fuel
  induction fuel with
  | zero => intro flag y; simp [diagAux, specAlternating]
  | succ n ih =>
    intro flag y
    by_cases hy : y - 50 * dy < y1
    · simp only [diagAux, if_pos hy, List.map_cons, List.length_cons, if_true]
      rw [specAlternating, ih (!flag) (y + dy_m)]
    · simp [diagAux, if_neg hy, specAlternating]

lemma specAlternating_chain (n : Nat) :
    ∀ b : Bool, List.Chain' (fun a b => a ≠ b) (specAlternating b n) := by
  induction n with
  | zero => intro b; simp [specAlternating]
  | succ n ih =>
    intro b
    cases n with
    | zero => cases b <;> simp [specAlternating]
    | succ m =>
      rw [specAlternating, specAlternating, List.chain'_cons]
      refine ⟨by cases b <;> decide, ?_⟩
      exact ih (!b)

/-- Claim C9: in the diagonal-line fill with `alter_linetype = True`, the
sequence of line types of the consecutively drawn rows is the strictly
alternating DASH/SOLID sequence whose start phase is DASH exactly when
`(x // dx_m) % 4` is nonzero for the computed grid start `x` — a
deterministic function of only the bounding box and pitch — and in
particular consecutive rows always differ. -/
theorem C9_diagonal_alternation (canvas_unit : Option UnitState)
    (x0 x1 y0 y1 d_mm : ℚ) (linetype : Option LineType) :
    (fill_polygon_with_lines_diagonal canvas_unit (x0, x1, y0, y1) linetype true d_mm).map
        Prod.snd =
      specAlternating (!diag_flag0 canvas_unit x0 d_mm)
        (fill_polygon_with_lines_diagonal canvas_unit (x0, x1, y0, y1) linetype true
          d_mm).length ∧
    List.Chain' (fun a b => a ≠ b)
      ((fill_polygon_with_lines_diagonal canvas_unit (x0, x1, y0, y1) linetype true d_mm).map
        Prod.snd) := by
  have hmap := diagAux_linetypes linetype (diag_dy canvas_unit x0 x1)
    (diag_dy_m canvas_unit d_mm) (diag_x_start canvas_unit x0 d_mm - 50 * (x1 - x0))
    (diag_x_start canvas_unit x0 d_mm + 50 * (x1 - x0)) y1
    (stepCount (diag_y_start canvas_unit x0 x1 y0 d_mm)
      (y1 + 50 * (diag_dy canvas_unit x0 x1)) (diag_dy_m canvas_unit d_mm))
    (diag_flag0 canvas_unit x0 d_mm) (diag_y_start canvas_unit x0 x1 y0 d_mm)
  constructor
  · exact hmap
  · rw [show (fill_polygon_with_lines_diagonal canvas_unit (x0, x1, y0, y1) linetype true
        d_mm).map Prod.snd =
        specAlternating (!diag_flag0 canvas_unit x0 d_mm)
          (fill_polygon_with_lines_diagonal canvas_unit (x0, x1, y0, y1) linetype true
            d_mm).length from hmap]
    exact specAlternating_chain _ _

/-- The length of the longest string in a list (0 for the empty list). -/
def maxLen (l : List String) : Nat := l.foldr (fun s m => max s.length m) 0

lemma length_le_maxLen : ∀ {l : List String} {s : String}, s ∈ l → s.length ≤ maxLen l := by
  intro l
  induction l with
  | nil => intro s h; cases h
  | cons a rest ih =>
    intro s h
    rcases List.mem_cons.mp h with h | h
    · subst h; exact le_max_left _ _
    · exact le_trans (ih h) (le_max_right _ _)

/-- The collision loop of `Canvas.add` (`canvas.py` lines 94-97): while the
candidate name is already a key of the registry, append "+" to it. -/
def freshName (taken : List String) (n : String) : String :=
  if n ∈ taken then freshName taken (n ++ "+") else n
termination_by maxLen taken + 1 - n.length
decreasing_by
  simp_wf
  have h1 : n.length ≤ maxLen taken := length_le_maxLen (by assumption)
  have h2 : ("+" : String).length = 1 := rfl
  omega

lemma freshName_eq (taken : List String) (n : String) :
    freshName taken n = if n ∈ taken then freshName taken (n ++ "+") else n := by
  conv_lhs => unfold freshName

/-- k copies of "+" (prepended form, so that appending one more "+" to the
base name shifts the count by one). -/
def plusses : Nat → String
  | 0 => ""
  | k + 1 => "+" ++ plusses k

lemma freshName_spec (taken : List String) :
    ∀ (m : Nat) (n : String), maxLen taken + 1 - n.length ≤ m →
      freshName taken n ∉ taken ∧
      ∃ k, freshName taken n = n ++ plusses k ∧ ∀ j < k, n ++ plusses j ∈ taken := by
  intro m
  induction m with
  | zero =>
    intro n hm
    rw [freshName_eq]
    split
    · next h =>
        exfalso
        have := length_le_maxLen h
        omega
    · next h =>
        refine ⟨h, 0, ?_, ?_⟩
        · rw [plusses, String.append_empty]
        · intro j hj; omega
  | succ m ih =>
    intro n hm
    rw [freshName_eq]
    split
    · next h =>
        have hlen : (n ++ "+").length = n.length + 1 := by
          rw [String.length_append]
          rfl
        have hmax := length_le_maxLen h
        obtain ⟨h1, k, hk, hjk⟩ := ih (n ++ "+") (by omega)
        refine ⟨h1, k + 1, ?_, ?_⟩
        · rw [hk, String.append_assoc]
          rfl
        · intro j hj
          cases j with
          | zero =>
            rw [plusses, String.append_empty]
            exact h
          | succ j' =>
            have hmem := hjk j' (by omega)
            rw [plusses, ← String.append_assoc]
            exact hmem
    · next h =>
        refine ⟨h, 0, ?_, ?_⟩
        · rw [plusses, String.append_empty]
        · intro j hj; omega

/-- The requested registry name of `Canvas.add` (`canvas.py` line 93):
`name or unit.name` — the explicit argument unless it is `None` or the empty
string (both falsy in Python), in which case the unit's own name is used. -/
def requestedName (unit_own_name : String) (name : Option String) : String :=
  match name with
  | some s => if s = "" then unit_own_name else s
  | none => unit_own_name

/-- `Canvas.add` (`canvas.py` lines 90-101): the registry is an
insertion-ordered dict modelled as an association list; the unit is stored
under the first non-colliding "+"-suffixed variant of the requested name,
which is a fresh key, so the insertion appends one entry. -/
def Canvas.add {υ : Type} (units : List (String × υ)) (u : υ) (unit_own_name : String)
    (name : Option String) : List (String × υ) :=
  units ++ [(freshName (units.map Prod.fst) (requestedName unit_own_name name), u)]

/-- Claim C10: `Canvas.add` never replaces an already-registered unit: the
chosen key — the requested name with "+" appended as many times as needed —
is not among the existing keys, every previously registered entry is still
present unchanged, the new unit is stored under the chosen key, and the
registry grows by exactly one entry; moreover the number of appended "+" is
minimal (every shorter variant was taken). -/
theorem C10_add_never_replaces {υ : Type} (units : List (String × υ)) (u : υ)
    (unit_own_name : String) (name : Option String) :
    (Canvas.add units u unit_own_name name).length = units.length + 1 ∧
    (∀ p ∈ units, p ∈ Canvas.add units u unit_own_name name) ∧
    freshName (units.map Prod.fst) (requestedName unit_own_name name) ∉
      units.map Prod.fst ∧
    (freshName (units.map Prod.fst) (requestedName unit_own_name name), u) ∈
      Canvas.add units u unit_own_name name ∧
    ∃ k, freshName (units.map Prod.fst) (requestedName unit_own_name name) =
        requestedName unit_own_name name ++ plusses k ∧
      ∀ j < k, requestedName unit_own_name name ++ plusses j ∈ units.map Prod.fst := by
  obtain ⟨hfresh, k, hk, hjk⟩ :=
    freshName_spec (units.map Prod.fst)
      (maxLen (units.map Prod.fst) + 1 - (requestedName unit_own_name name).length)
      (requestedName unit_own_name name) le_rfl
  refine ⟨?_, ?_, hfresh, ?_, k, hk, hjk⟩
  · simp [Canvas.add]
  · intro p hp
    exact List.mem_append_left _ hp
  · exact List.mem_append_right _ (List.mem_singleton.mpr rfl)

/-- `math.degrees` (radians to degrees), as applied to `math.atan(dip * 10)`
in `gashura_helper.py` line 178. -/
noncomputable def degrees (x : ℝ) : ℝ := x * 180 / Real.pi

/-- One `shape.draw` invocation emitted by the motif fill: the grid position
and the rotation angle passed to the shape (`gashura_helper.py` line 179). -/
structure ShapeCall where
  position : ℚ × ℚ
  angle : ℝ

/-- The rotation angle computed for a sampled dip value
(`gashura_helper.py` lines 177-178): `dip = dip_function((x, y)) or 0;
angle = math.degrees(math.atan(dip * 10))`. -/
noncomputable def dip_to_angle (dip : Option ℚ) : ℝ :=
  degrees (Real.arctan (((dip.getD 0 : ℚ) : ℝ) * 10))

/-- The inner loop of `fill_polygon_with_shapes` (`gashura_helper.py` lines
176-180): `while x < x1 + dx_m`, sample the dip, compute the angle, draw the
shape at `(x, y)`, then `x += dx_m`. -/
noncomputable def shapesAuxX (dip_function : ℚ × ℚ → Option ℚ) (dx_m x1 y : ℚ) :
    Nat → ℚ → List ShapeCall
  | 0, _ => []
  | fuel + 1, x =>
    if x < x1 + dx_m then
      { position := (x, y), angle := dip_to_angle (dip_function (x, y)) } ::
        shapesAuxX dip_function dx_m x1 y fuel (x + dx_m)
    else []

/-- The outer loop of `fill_polygon_with_shapes` (`gashura_helper.py` lines
167-182): `while y < y1 + dy_m`, start the row at `x0` shifted by half
a pitch on every other row (brick tiling), run the inner loop, then
`y += dy_m`. -/
noncomputable def shapesAuxY (dip_function : ℚ × ℚ → Option ℚ) (dx_m dy_m x0 x1 y1 : ℚ) :
    Nat → Bool → ℚ → List ShapeCall
  | 0, _, _ => []
  | fuel + 1, shift_x, y =>
    if y < y1 + dy_m then
      shapesAuxX dip_function dx_m x1 y
        (stepCount (if shift_x then x0 + 0.5 * dx_m else x0) (x1 + dx_m) dx_m)
        (if shift_x then x0 + 0.5 * dx_m else x0) ++
        shapesAuxY dip_function dx_m dy_m x0 x1 y1 fuel (!shift_x) (y + dy_m)
    else []

/-- The horizontal motif pitch (`gashura_helper.py` lines 154-161):
`shape.dx_mm`, converted from millimeters for a linked unit, then multiplied
by `scale * offset_factor`. -/
def shapes_dx_m (canvas_unit : Option UnitState) (dx_mm scale offset_factor : ℚ) : ℚ :=
  (match canvas_unit with
   | some u => mm_to_m_horizontal u dx_mm
   | none => dx_mm) * (scale * offset_factor)

/-- The vertical motif pitch (`gashura_helper.py` lines 154-162):
`shape.dy_mm`, converted from millimeters for a linked unit, then multiplied
by `scale * offset_factor`. -/
def shapes_dy_m (canvas_unit : Option UnitState) (dy_mm scale offset_factor : ℚ) : ℚ :=
  (match canvas_unit with
   | some u => mm_to_m_vertical u dy_mm
   | none => dy_mm) * (scale * offset_factor)

/-- `fill_polygon_with_shapes` (`gashura_helper.py` lines 151-182): grid
start `y0 - y0 % (2*dy_m)` and `x0 - x0 % dx_m`, then the brick-pattern grid
walk; at each grid point the dip function is sampled and the shape is drawn
at angle `degrees(atan(dip * 10))`. Returns the emitted `shape.draw` calls
in order. -/
noncomputable def fill_polygon_with_shapes (canvas_unit : Option UnitState)
    (bounding_box : ℚ × ℚ × ℚ × ℚ) (dip_function : ℚ × ℚ → Option ℚ)
    (dx_mm dy_mm scale offset_factor : ℚ) : List ShapeCall :=
  match bounding_box with
  | (x0, x1, y0, y1) =>
    shapesAuxY dip_function (shapes_dx_m canvas_unit dx_mm scale offset_factor)
      (shapes_dy_m canvas_unit dy_mm scale offset_factor)
      (x0 - pymod x0 (shapes_dx_m canvas_unit dx_mm scale offset_factor)) x1 y1
      (stepCount (y0 - pymod y0 (2 * shapes_dy_m canvas_unit dy_mm scale offset_factor))
        (y1 + shapes_dy_m canvas_unit dy_mm scale offset_factor)
        (shapes_dy_m canvas_unit dy_mm scale offset_factor))
      false
      (y0 - pymod y0 (2 * shapes_dy_m canvas_unit dy_mm scale offset_factor))

lemma shapesAuxX_angles (dip_function : ℚ × ℚ → Option ℚ) (dx_m x1 y : ℚ) :
    ∀ (fuel : Nat) (x : ℚ) (c : ShapeCall),
      c ∈ shapesAuxX dip_function dx_m x1 y fuel x →
        c.angle = dip_to_angle (dip_function c.position) := by
  intro fuel
  induction fuel with
  | zero => intro x c hc; simp [shapesAuxX] at hc
  | succ n ih =>
    intro x c hc
    rw [shapesAuxX] at hc
    by_cases hx : x < x1 + dx_m
    · rw [if_pos hx] at hc
      rcases List.mem_cons.mp hc with hc | hc
      · subst hc; rfl
      · exact ih (x + dx_m) c hc
    · rw [if_neg hx] at hc
      simp at hc

lemma shapesAuxY_angles (dip_function : ℚ × ℚ → Option ℚ) (dx_m dy_m x0 x1 y1 : ℚ) :
    ∀ (fuel : Nat) (shift_x : Bool) (y : ℚ) (c : ShapeCall),
      c ∈ shapesAuxY dip_function dx_m dy_m x0 x1 y1 fuel shift_x y →
        c.angle = dip_to_angle (dip_function c.position) := by
  intro fuel
  induction fuel with
  | zero => intro shift_x y c hc; simp [shapesAuxY] at hc
  | succ n ih =>
    intro shift_x y c hc
    rw [shapesAuxY] at hc
    by_cases hy : y < y1 + dy_m
    · rw [if_pos hy] at hc
      rcases List.mem_append.mp hc with hc | hc
      · exact shapesAuxX_angles dip_function dx_m x1 y _ _ c hc
      · exact ih (!shift_x) (y + dy_m) c hc
    · rw [if_neg hy] at hc
      simp at hc

lemma fill_shapes_angles (canvas_unit : Option UnitState) (bounding_box : ℚ × ℚ × ℚ × ℚ)
    (dip_function : ℚ × ℚ → Option ℚ) (dx_mm dy_mm scale offset_factor : ℚ) :
    (fill_polygon_with_shapes canvas_unit bounding_box dip_function dx_mm dy_mm scale
        offset_factor).Forall
      (fun c => c.angle = dip_to_angle (dip_function c.position)) := by
  rw [List.forall_iff_forall_mem]
  match bounding_box with
  | (x0, x1, y0, y1) =>
    intro c hc
    exact shapesAuxY_angles dip_function _ _ _ _ _ _ _ _ c hc

lemma dip_to_angle_const_tenth : dip_to_angle (some (1 / 10)) = 45 := by
  unfold dip_to_angle degrees
  have h1 : ((((1 : ℚ) / 10 : ℚ) : ℝ)) * 10 = 1 := by push_cast; ring
  simp only [Option.getD_some]
  rw [h1, Real.arctan_one]
  have hpi := Real.pi_ne_zero
  field_simp
  ring

lemma dip_to_angle_none : dip_to_angle none = 0 := by
  unfold dip_to_angle degrees
  simp [Real.arctan_zero]

/-- Claim C4: in a motif fill every emitted `shape.draw` call carries the
rotation angle `degrees(atan(dip * 10))` for the dip value sampled at that
call's own grid position (`dip_to_angle`), where a dip function returning
`None` is treated as zero dip; in particular a dip function returning the
constant `0.1` everywhere yields a constant angle of 45 degrees for every
motif instance, and one returning `None` everywhere yields angle 0. -/
theorem C4_dip_rotation_angle (canvas_unit : Option UnitState)
    (bounding_box : ℚ × ℚ × ℚ × ℚ) (dip_function : ℚ × ℚ → Option ℚ)
    (dx_mm dy_mm scale offset_factor : ℚ) :
    (fill_polygon_with_shapes canvas_unit bounding_box dip_function dx_mm dy_mm scale
        offset_factor).Forall
      (fun c => c.angle = dip_to_angle (dip_function c.position)) ∧
    (fill_polygon_with_shapes canvas_unit bounding_box (fun _ => some (1 / 10)) dx_mm dy_mm
        scale offset_factor).Forall (fun c => c.angle = 45) ∧
    (fill_polygon_with_shapes canvas_unit bounding_box (fun _ => none) dx_mm dy_mm scale
        offset_factor).Forall (fun c => c.angle = 0) := by
  refine ⟨fill_shapes_angles canvas_unit bounding_box dip_function dx_mm dy_mm scale
    offset_factor, ?_, ?_⟩
  · exact List.Forall.imp (fun c hc => by rw [hc]; exact dip_to_angle_const_tenth)
      (fill_shapes_angles canvas_unit bounding_box (fun _ => some (1 / 10)) dx_mm dy_mm scale
        offset_factor)
  · exact List.Forall.imp (fun c hc => by rw [hc]; exact dip_to_angle_none)
      (fill_shapes_angles canvas_unit bounding_box (fun _ => none) dx_mm dy_mm scale
        offset_factor)

/-- The shape catalog `rock_shapes` of `gashura_helper.py` (lines 9-29):
each rock name mapped to the tiling pitch `(dx_mm, dy_mm)` of its shape
class from `shapes.py` (class defaults are `dx_mm = 3, dy_mm = 3`;
`Valunnik` uses 5,5; `Gravyi`, `Sand`, `Dresva` and `Spai` use 2,2). -/
def rock_shapes : List (String × (ℚ × ℚ)) :=
  [("галечник", (3, 3)), ("валунник", (5, 5)), ("гравий", (2, 2)), ("ил", (3, 3)),
   ("песок", (2, 2)), ("глина", (3, 3)), ("дресва", (2, 2)), ("щебень", (3, 3)),
   ("спай", (2, 2)), ("андезит", (3, 3)), ("дацит", (3, 3)), ("базальт", (3, 3)),
   ("андезибазальт", (3, 3)), ("андезидацит", (3, 3)), ("андезибазальт туф", (3, 3)),
   ("риолит", (3, 3)), ("гранодиорит", (3, 3)), ("диорит", (3, 3)), ("гранит", (3, 3))]

/-- Dictionary lookup `rock_shapes[rock]` / `rock in rock_shapes`. -/
def find_shape (rock : String) : List (String × (ℚ × ℚ)) → Option (ℚ × ℚ)
  | [] => none
  | (name, s) :: rest => if rock = name then some s else find_shape rock rest

lemma find_shape_eq_none {rock : String} :
    ∀ {l : List (String × (ℚ × ℚ))}, rock ∉ l.map Prod.fst → find_shape rock l = none := by
  intro l
  induction l with
  | nil => intro _; rfl
  | cons p rest ih =>
    intro h
    obtain ⟨name, s⟩ := p
    simp only [List.map_cons, List.mem_cons] at h
    push_neg at h
    rw [find_shape, if_neg h.1]
    exact ih h.2

/-- Modelled from the spec: `create_shape_for_rock_and_aggregates` is
imported by `gashura_helper.py` from `shapes.py` but is absent from that
file; per the spec (§4.4) the base motif is combined with the aggregate
motifs "into a composite cyclic MultiShape on the fly". Only the composite's
tiling pitch is observed by the grid walk modelled here; the spec does not
state it, so it is modelled as the base shape's pitch. -/
def create_shape_for_rock_and_aggregates (shape : ℚ × ℚ)
    (aggregate_shapes : List (ℚ × ℚ)) : ℚ × ℚ :=
  shape

/-- A drawing-primitive invocation emitted by a fill request: a vertical
fill line, a diagonal fill row, or a motif `shape.draw` call. -/
inductive FillEvent where
  | vline (line : Line)
  | dline (row : DiagRow)
  | shape (call : ShapeCall)

/-- The built-in (non-catalog) rock names handled by the first four branches
of `fill_polygon_with_pattern` (`gashura_helper.py` lines 34-45). -/
def builtin_rocks : List String :=
  ["торф", "прс", "коренные породы", "сланцы", "переходный слой (трещиноватый коренник)"]

/-- `fill_polygon_with_pattern` (`gashura_helper.py` lines 32-73): dispatch
on the rock name — vertical fill for "торф" (pitch 2mm) and "прс" (1mm),
diagonal fill with alternating styles for "коренные породы", plain diagonal
fill (2mm) for "сланцы" and the transitional layer, otherwise a motif fill
with the catalog shape. Returns the emitted drawing calls together with a
flag recording whether the diagnostic print was reached: an unknown rock
name prints `Can't find shape for ...` and returns (lines 49-51), while a
composite request whose aggregate list names an unknown material returns
silently at that point (lines 58-59). In both cases no drawing call is
emitted and no exception is raised. The Python `aggregate` argument may be
a single string, modelled as a one-element list, and `None`, modelled (like
the falsy empty list) as `[]`. -/
noncomputable def fill_polygon_with_pattern (canvas_unit : Option UnitState) (rock : String)
    (bounding_box : ℚ × ℚ × ℚ × ℚ) (dip_function : ℚ × ℚ → Option ℚ)
    (aggregate : List String) (scale offset_factor : ℚ) : List FillEvent × Bool :=
  if rock = "торф" then
    ((fill_polygon_with_lines_vertical canvas_unit bounding_box 2).map FillEvent.vline, false)
  else if rock = "прс" then
    ((fill_polygon_with_lines_vertical canvas_unit bounding_box 1).map FillEvent.vline, false)
  else if rock = "коренные породы" then
    ((fill_polygon_with_lines_diagonal canvas_unit bounding_box none true 3).map
      FillEvent.dline, false)
  else if rock = "сланцы" ∨ rock = "переходный слой (трещиноватый коренник)" then
    ((fill_polygon_with_lines_diagonal canvas_unit bounding_box none false 2).map
      FillEvent.dline, false)
  else
    match find_shape rock rock_shapes with
    | none => ([], true)
    | some shape =>
      if aggregate ≠ [] then
        if _h : ∃ r ∈ aggregate, find_shape r rock_shapes = none then ([], false)
        else
          ((fill_polygon_with_shapes canvas_unit bounding_box dip_function
            (create_shape_for_rock_and_aggregates shape
              (aggregate.filterMap (fun r => find_shape r rock_shapes))).1
            (create_shape_for_rock_and_aggregates shape
              (aggregate.filterMap (fun r => find_shape r rock_shapes))).2
            scale offset_factor).map FillEvent.shape, false)
      else
        ((fill_polygon_with_shapes canvas_unit bounding_box dip_function shape.1 shape.2
          scale offset_factor).map FillEvent.shape, false)

lemma find_shape_isSome {rock : String} :
    ∀ {l : List (String × (ℚ × ℚ))}, rock ∈ l.map Prod.fst →
      ∃ s, find_shape rock l = some s := by
  intro l
  induction l with
  | nil => intro h; cases h
  | cons p rest ih =>
    intro h
    obtain ⟨name, s⟩ := p
    by_cases he : rock = name
    · exact ⟨s, by rw [find_shape, if_pos he]⟩
    · simp only [List.map_cons, List.mem_cons] at h
      rcases h with h | h
      · exact absurd h he
      · obtain ⟨t, ht⟩ := ih h
        exact ⟨t, by rw [find_shape, if_neg he]; exact ht⟩

/-- Evaluation at the C8 counterexample input: the known rock "гранит" with
the unknown aggregate "мрамор" emits no drawing call and reaches no
diagnostic print. -/
lemma pattern_granit_unknown_aggregate :
    fill_polygon_with_pattern none "гранит" (0, 10, 0, 10) (fun _ => none) ["мрамор"] 1 1 =
      ([], false) := by
  rfl

/-- Claim C8 (amended): a rock name that is neither a built-in fill nor a
catalog entry makes `fill_polygon_with_pattern` return normally with no
drawing invoked, after emitting the diagnostic print, whatever the aggregate
argument; a composite request on a catalog rock whose aggregate list names a
material missing from the catalog likewise emits no drawing call but returns
silently, without a diagnostic. In both cases only that one fill request is
skipped, so subsequent fill requests are unaffected. -/
theorem C8_unknown_rock_is_noop (canvas_unit : Option UnitState)
    (bounding_box : ℚ × ℚ × ℚ × ℚ) (dip_function : ℚ × ℚ → Option ℚ)
    (scale offset_factor : ℚ) (rock : String) (aggregate aggAny : List String) :
    (rock ∉ builtin_rocks → rock ∉ rock_shapes.map Prod.fst →
      fill_polygon_with_pattern canvas_unit rock bounding_box dip_function aggAny scale
        offset_factor = ([], true)) ∧
    (rock ∉ builtin_rocks → rock ∈ rock_shapes.map Prod.fst →
      (∃ r ∈ aggregate, r ∉ rock_shapes.map Prod.fst) →
      fill_polygon_with_pattern canvas_unit rock bounding_box dip_function aggregate scale
        offset_factor = ([], false)) := by
  constructor
  · intro hb hc
    obtain ⟨h1, h2, h3, h4, h5⟩ :
        rock ≠ "торф" ∧ rock ≠ "прс" ∧ rock ≠ "коренные породы" ∧ rock ≠ "сланцы" ∧
          rock ≠ "переходный слой (трещиноватый коренник)" := by
      simpa [builtin_rocks] using hb
    rw [fill_polygon_with_pattern, if_neg h1, if_neg h2, if_neg h3,
      if_neg (show ¬(rock = "сланцы" ∨ rock = "переходный слой (трещиноватый коренник)") by
        tauto),
      find_shape_eq_none hc]
  · intro hb hmem hagg
    obtain ⟨h1, h2, h3, h4, h5⟩ :
        rock ≠ "торф" ∧ rock ≠ "прс" ∧ rock ≠ "коренные породы" ∧ rock ≠ "сланцы" ∧
          rock ≠ "переходный слой (трещиноватый коренник)" := by
      simpa [builtin_rocks] using hb
    rw [fill_polygon_with_pattern, if_neg h1, if_neg h2, if_neg h3,
      if_neg (show ¬(rock = "сланцы" ∨ rock = "переходный слой (трещиноватый коренник)") by
        tauto)]
    obtain ⟨r, hr, hrn⟩ := hagg
    have hne : aggregate ≠ [] := by
      intro h0
      rw [h0] at hr
      cases hr
    have hex : ∃ r ∈ aggregate, find_shape r rock_shapes = none :=
      ⟨r, hr, find_shape_eq_none hrn⟩
    obtain ⟨shape, hfs⟩ := find_shape_isSome hmem
    rw [hfs]
    simp [hne, hex]

/-- Witness for C8 (amended): the unknown rock "мрамор" returns no events
with the diagnostic reached, and the catalog rock "гранит" with the unknown
aggregate "мрамор" returns no events without the diagnostic. -/
theorem C8_unknown_rock_is_noop_witness :
    fill_polygon_with_pattern none "мрамор" (0, 10, 0, 10) (fun _ => none) [] 1 1 =
      ([], true) ∧
    fill_polygon_with_pattern none "гранит" (0, 10, 0, 10) (fun _ => none) ["мрамор"] 1 1 =
      ([], false) :=
  ⟨(C8_unknown_rock_is_noop none (0, 10, 0, 10) (fun _ => none) 1 1 "мрамор" [] []).1
      (by decide) (by decide),
   (C8_unknown_rock_is_noop none (0, 10, 0, 10) (fun _ => none) 1 1 "гранит" ["мрамор"]
      []).2 (by decide) (by decide) ⟨"мрамор", by decide, by decide⟩⟩

/-- Counterexample to C8 as stated: the composite fill request for the
catalog rock "гранит" naming the aggregate "мрамор", which is not in the
catalog, is skipped (no drawing call is emitted) but no diagnostic is
emitted — the source's unknown-aggregate branch (`gashura_helper.py` lines
58-59) returns without printing, unlike the unknown-rock branch. -/
theorem C8_counterexample :
    (fill_polygon_with_pattern none "гранит" (0, 10, 0, 10) (fun _ => none) ["мрамор"] 1
        1).1 = [] ∧
    (fill_polygon_with_pattern none "гранит" (0, 10, 0, 10) (fun _ => none) ["мрамор"] 1
        1).2 = false ∧
    (fill_polygon_with_pattern none "мрамор" (0, 10, 0, 10) (fun _ => none) [] 1 1).2 =
      true := by
  rw [pattern_granit_unknown_aggregate]
  refine ⟨rfl, rfl, rfl⟩
